import Mathlib

/-!
Verification development for the Chronicle desktop application's automation
core (`src/app/src-tauri/src`).  Each Rust component relevant to the verified
properties is shallowly embedded as executable Lean definitions:

* `Chronicle.Tracker` — the session/annotation state machine
  (`session/tracker.rs`).  `DateTime<Utc>` instants are modelled as `Int`
  milliseconds since an arbitrary epoch; chrono's `Duration::num_minutes`
  truncates toward zero, which is `Int.div` here.  `u32` counters wrap
  modulo `2^32` exactly where the Rust `as u32` cast / overflowing `+=`
  can wrap.
* `Chronicle.Runner` — the task-runner result construction and spawn-error
  classification (`commands/claude.rs`, `run_claude_streaming`).
* `Chronicle.Pipeline` — the background-agent orchestration
  (`commands/claude.rs`, `run_background_agents`).
* `Chronicle.Git` — the semantic commit layer (`git/repo.rs`) over a small
  explicit workspace/repository state.
* `Chronicle.Watch` — the filesystem event classifier (`watcher.rs`).
-/

namespace Chronicle

namespace Tracker

/-- Rust `SessionState` from `session/tracker.rs`. -/
inductive SessionState where
  | inactive
  | active
  | ended
deriving DecidableEq, Repr

/-- Rust `SessionConfig` from `session/tracker.rs` (`u32` minutes). -/
structure SessionConfig where
  inactivity_timeout_minutes : Nat
  max_duration_minutes : Nat
deriving DecidableEq, Repr

/-- Rust `SessionConfig::default()`. -/
def SessionConfig.default : SessionConfig :=
  { inactivity_timeout_minutes := 15, max_duration_minutes := 120 }

/-- Rust `Session` from `session/tracker.rs`.  Instants are `Int` milliseconds. -/
structure Session where
  note_path : String
  state : SessionState
  started_at : Option Int
  ended_at : Option Int
  last_edit_at : Option Int
  duration_minutes : Nat
  annotation_count : Nat
  last_annotation_at : Option Int
deriving DecidableEq, Repr

/-- chrono `Duration::num_minutes` on a millisecond duration: truncating
(T-)division by 60000, as in Rust's `/` on integers. -/
def numMinutes (ms : Int) : Int := Int.tdiv ms 60000

/-- chrono `Duration::minutes(m)` as milliseconds. -/
def minutesMs (m : Nat) : Int := (m : Int) * 60000

/-- Rust `Session::new` — a fresh inactive session. -/
def Session.new (note_path : String) : Session :=
  { note_path
    state := .inactive
    started_at := none
    ended_at := none
    last_edit_at := none
    duration_minutes := 0
    annotation_count := 0
    last_annotation_at := none }

/-- Rust `Session::from_ended` — a session restored from persisted metadata. -/
def Session.from_ended (note_path : String) (started_at ended_at : Int)
    (duration_minutes annotation_count : Nat)
    (last_annotation_at : Option Int) : Session :=
  { note_path
    state := .ended
    started_at := some started_at
    ended_at := some ended_at
    last_edit_at := some ended_at
    duration_minutes := duration_minutes % 2 ^ 32
    annotation_count := annotation_count % 2 ^ 32
    last_annotation_at }

/-- Rust `Session::start` at instant `now`. -/
def Session.start (s : Session) (now : Int) : Session :=
  { s with
    state := .active
    started_at := some now
    last_edit_at := some now
    ended_at := none
    duration_minutes := 0
    annotation_count := 0
    last_annotation_at := none }

/-- Rust `Session::record_edit` at instant `now`. -/
def Session.record_edit (s : Session) (now : Int) : Session :=
  match s.state with
  | .inactive => s.start now
  | .active => { s with last_edit_at := some now }
  | .ended =>
      { s with
        annotation_count := (s.annotation_count + 1) % 2 ^ 32
        last_annotation_at := some now }

/-- Rust `Session::end` at instant `now` (`end` is a Lean keyword, hence
`endSession`).  The frozen duration is `(now - started).num_minutes().max(0)
as u32`. -/
def Session.endSession (s : Session) (now : Int) : Session :=
  if s.state ≠ .active then s
  else
    let s' := { s with state := SessionState.ended, ended_at := some now }
    match s.started_at with
    | some started =>
        { s' with
          duration_minutes := (max (numMinutes (now - started)) 0).toNat % 2 ^ 32 }
    | none => s'

/-- Rust `Session::check_timeouts` at instant `now`: returns the updated session
and the `bool` the Rust function returns. -/
def Session.check_timeouts (s : Session) (config : SessionConfig)
    (now : Int) : Session × Bool :=
  if s.state ≠ .active then (s, false)
  else
    let maxHit : Bool :=
      match s.started_at with
      | some started =>
          decide (now - started ≥ minutesMs config.max_duration_minutes)
      | none => false
    if maxHit then (s.endSession now, true)
    else
      let inactiveHit : Bool :=
        match s.last_edit_at with
        | some last_edit =>
            decide
              (now - last_edit ≥ minutesMs config.inactivity_timeout_minutes)
        | none => false
      if inactiveHit then (s.endSession now, true)
      else (s, false)

/-- Rust `Session::current_duration_minutes` at instant `now`. -/
def Session.current_duration_minutes (s : Session) (now : Int) : Nat :=
  match s.state with
  | .active =>
      match s.started_at with
      | some started => (max (numMinutes (now - started)) 0).toNat % 2 ^ 32
      | none => 0
  | .ended => s.duration_minutes
  | .inactive => 0

/-- Rust `SessionManager` from `session/tracker.rs`: the single mutex-guarded
current-session slot plus the configuration. -/
structure SessionManager where
  current : Option Session
  config : SessionConfig
deriving DecidableEq, Repr

/-- Rust `SessionManager::new`. -/
def SessionManager.new (config : SessionConfig) : SessionManager :=
  { current := none, config }

/-- Rust `SessionInfo` from `session/tracker.rs`. -/
structure SessionInfo where
  note_path : String
  state : SessionState
  duration_minutes : Nat
  annotation_count : Nat
  started_at : Option Int
  ended_at : Option Int
deriving DecidableEq, Repr

/-- Rust `SessionManager::get_session_info` at instant `now`. -/
def SessionManager.get_session_info (m : SessionManager) (now : Int) :
    Option SessionInfo :=
  m.current.map fun s =>
    { note_path := s.note_path
      state := s.state
      duration_minutes := s.current_duration_minutes now
      annotation_count := s.annotation_count
      started_at := s.started_at
      ended_at := s.ended_at }

/-- Rust `update_session_config` from `commands/session.rs`: unconditionally
replaces the managed `SessionManager` with a fresh one built from the new
configuration. -/
def update_session_config (_manager : SessionManager)
    (inactivity_timeout_minutes max_duration_minutes : Nat) : SessionManager :=
  SessionManager.new
    { inactivity_timeout_minutes, max_duration_minutes }

/-- Sessions reachable from a fresh `Session::new` (or a restored
`Session::from_ended`) by `record_edit`, `end` and `check_timeouts`. -/
inductive Reachable : Session → Prop where
  | new (p : String) : Reachable (Session.new p)
  | from_ended (p : String) (st en : Int) (d a : Nat) (la : Option Int) :
      Reachable (Session.from_ended p st en d a la)
  | record_edit (s : Session) (now : Int) :
      Reachable s → Reachable (s.record_edit now)
  | endSession (s : Session) (now : Int) :
      Reachable s → Reachable (s.endSession now)
  | check_timeouts (s : Session) (config : SessionConfig) (now : Int) :
      Reachable s → Reachable (s.check_timeouts config now).1

end Tracker

namespace Runner

/-- Rust `ClaudeResult` from `commands/claude.rs`. -/
structure ClaudeResult where
  success : Bool
  output : String
  error : Option String
  duration_ms : Nat
deriving DecidableEq, Repr

/-- Rust `Vec<String>::join("\n")`, as used on each stream's line buffer. -/
def joinLines (lines : List String) : String :=
  String.intercalate "\n" lines

/-- The `Ok(ClaudeResult { .. })` built at the end of
`run_claude_streaming` (claude.rs:159-168), from the exit status, the two
per-stream line buffers and the measured duration. -/
def mkClaudeResult (statusSuccess : Bool)
    (stdoutLines stderrLines : List String) (durationMs : Nat) : ClaudeResult :=
  let stdout_output := joinLines stdoutLines
  let stderr_output := joinLines stderrLines
  { success := statusSuccess
    output := stdout_output
    error := if stderr_output.isEmpty then none else some stderr_output
    duration_ms := durationMs }

/-- Rust `std::io::ErrorKind` of a failed spawn, reduced to the distinction the
code makes. -/
inductive SpawnErrorKind where
  | notFound
  | otherKind
deriving DecidableEq, Repr

/-- The `map_err` closure on `spawn()` in `run_claude_streaming`
(claude.rs:97-104): `NotFound` yields the fixed installation-hint message,
any other kind yields `"Failed to run Claude Code: "` followed by the OS
error's display text. -/
def spawnErrorMessage (kind : SpawnErrorKind) (osMessage : String) : String :=
  match kind with
  | .notFound =>
      "Claude Code is not installed. Install it from https://claude.ai/download"
  | .otherKind => "Failed to run Claude Code: " ++ osMessage

end Runner

namespace Pipeline

open Runner

/-- The three background-agent stages run by `run_background_agents`
(claude.rs:269-333), in pipeline order. -/
inductive Stage where
  | tagger
  | actions
  | contextUpdater
deriving DecidableEq, Repr

/-- Events emitted through the Tauri event bridge during a pipeline run. -/
inductive PipelineEvent where
  | agentsStarted
  | taskError (stage : Stage) (error : String)
  | agentsCompleted
deriving DecidableEq, Repr

/-- Outcome of one `run_background_agents` invocation: the emitted events,
the stages whose `run_agent` call was actually made, and the
`Result<(), String>` returned. -/
structure PipelineRun where
  events : List PipelineEvent
  attempted : List Stage
  outcome : Except String Unit
deriving Repr

/-- Rust `run_background_agents` (claude.rs:269-333), with each stage's
`run_agent` result supplied as input.  The tagger's failure returns early
(stages 2-3 never run); an actions or context-updater failure only emits a
task-error event; the function returns `context_result.map(|_| ())`. -/
def run_background_agents
    (taggerResult actionsResult contextResult : Except String ClaudeResult) :
    PipelineRun :=
  match taggerResult with
  | .error e =>
      { events := [.agentsStarted, .taskError .tagger e, .agentsCompleted]
        attempted := [.tagger]
        outcome := .error e }
  | .ok _ =>
      let actionsEvents :=
        match actionsResult with
        | .error e => [PipelineEvent.taskError .actions e]
        | .ok _ => []
      let contextEvents :=
        match contextResult with
        | .error e => [PipelineEvent.taskError .contextUpdater e]
        | .ok _ => []
      { events :=
          [PipelineEvent.agentsStarted] ++ actionsEvents ++ contextEvents ++
            [PipelineEvent.agentsCompleted]
        attempted := [.tagger, .actions, .contextUpdater]
        outcome := contextResult.map fun _ => () }

end Pipeline

namespace Git

/-- Rust `CommitType` from `git/repo.rs`. -/
inductive CommitType where
  | session
  | process
  | annotate
  | snapshot
deriving DecidableEq, Repr

/-- Rust `CommitType::prefix` (`prefix` is reserved in this development's
host language, hence `prefixStr`). -/
def CommitType.prefixStr : CommitType → String
  | .session => "session"
  | .process => "process"
  | .annotate => "annotate"
  | .snapshot => "snapshot"

/-- A commit object: message, the tree snapshot (the set of paths the index
held when the commit was written), and the parent commit's id (`none` for a
parentless initial commit). -/
structure GitCommit where
  message : String
  tree : List String
  parent : Option Nat
deriving DecidableEq, Repr

/-- The on-disk state of one workspace directory as the commit layer sees
it: which relative paths exist on disk, whether `.git` exists, the
repository index (an ordered duplicate-free path list, as git's index is),
and the commit chain (position in the list is the commit id; the current
branch tip `HEAD` is the last element). -/
structure WorkspaceState where
  diskFiles : List String
  hasGitDir : Bool
  index : List String
  commits : List GitCommit
deriving DecidableEq, Repr

/-- Rust `is_git_repo`: `.git` exists under the path. -/
def is_git_repo (st : WorkspaceState) : Bool := st.hasGitDir

/-- Rust `git2::Index::add_path`: inserts the path into the index, replacing any
existing entry for the same path (set-like: a second add of the same path
changes nothing). -/
def addToIndex (idx : List String) (p : String) : List String :=
  if p ∈ idx then idx else idx ++ [p]

/-- Rust `create_default_gitignore` (repo.rs:59-66): writes `.gitignore` only if
it does not already exist.  Only existence is tracked here. -/
def create_default_gitignore (st : WorkspaceState) : WorkspaceState :=
  if ".gitignore" ∈ st.diskFiles then st
  else { st with diskFiles := st.diskFiles ++ [".gitignore"] }

/-- Rust `create_initial_commit` (repo.rs:69-93): stages `.gitignore`, writes the
tree, and commits with no parents. -/
def create_initial_commit (st : WorkspaceState) : WorkspaceState :=
  let idx := addToIndex st.index ".gitignore"
  { st with
    index := idx
    commits :=
      st.commits ++ [{ message := "Initial commit: Chronicle workspace"
                       tree := idx
                       parent := none }] }

/-- Rust `init_or_open_repo` (repo.rs:40-56): open without side effects when
`.git` exists, otherwise `Repository::init` (which creates `.git`), write
the default ignore file, and create the initial commit. -/
def init_or_open_repo (st : WorkspaceState) : WorkspaceState :=
  if is_git_repo st then st
  else
    create_initial_commit
      (create_default_gitignore { st with hasGitDir := true })

/-- Lower-case hex digit. -/
def hexDigit (n : Nat) : Char :=
  if n < 10 then Char.ofNat (48 + n) else Char.ofNat (87 + n % 16)

/-- The `k` hex digits of `v`, most significant first. -/
def hexDigits : Nat → Nat → List Char
  | 0, _ => []
  | k + 1, v => hexDigits k (v / 16) ++ [hexDigit (v % 16)]

/-- Rust `git2::Oid::to_string`: 40 lower-case hex characters. -/
def oidToString (oid : Nat) : String := String.mk (hexDigits 40 oid)

/-- Rust `commit_id.to_string()[..7]` — the short hash both commit functions
return; the slice takes the first 7 bytes, all hex digits being ASCII. -/
def shortId (oid : Nat) : String := String.mk ((hexDigits 40 oid).take 7)

/-- Rust `GitError` from `git/repo.rs`, reduced to the variants this model can
produce. -/
inductive GitError where
  | repoNotFound (path : String)
deriving DecidableEq, Repr

/-- Rust `commit_files` (repo.rs:117-175) on relative paths: error when no
repository exists; otherwise stage each listed path that exists on disk
(`if full_path.exists()`), write the tree from the index, pick the branch
tip as sole parent (none when the repository has no commits), build the
`"<type>: <title> (<detail>)"` message, commit, and return the 7-character
short hash.  The new commit's id is the next position in the chain. -/
def commit_files (st : WorkspaceState) (files : List String)
    (commit_type : CommitType) (title detail : String) :
    Except GitError (WorkspaceState × String) :=
  if ¬ st.hasGitDir then .error (.repoNotFound "") else
  let idx :=
    files.foldl
      (fun acc f => if f ∈ st.diskFiles then addToIndex acc f else acc)
      st.index
  let parent : Option Nat :=
    if st.commits.isEmpty then none else some (st.commits.length - 1)
  let message :=
    commit_type.prefixStr ++ ": " ++ title ++ " (" ++ detail ++ ")"
  let commitId := st.commits.length
  .ok
    ({ st with
        index := idx
        commits := st.commits ++ [{ message, tree := idx, parent }] },
      shortId commitId)

end Git

namespace Watch

/-- The `notify::EventKind` cases the watcher callback distinguishes
(watcher.rs:29-56). -/
inductive EventKind where
  | create
  | modify
  | remove
  | other
deriving DecidableEq, Repr

/-- The semantic notifications the watcher can emit. -/
inductive Notification where
  | tagsUpdated
  | actionsUpdated
  | linksUpdated
  | processedUpdated
deriving DecidableEq, Repr

/-- A filesystem path as a list of components. -/
abbrev FsPath := List String

/-- Rust `Path::file_name().unwrap_or_default()`: the last component, or the
empty string. -/
def fileName (p : FsPath) : String := (p.getLast?).getD ""

/-- Rust `Path::starts_with(dir)`: component-wise prefix test. -/
def startsWithDir (dir p : FsPath) : Bool := dir.isPrefixOf p

/-- The per-path classification inside the watcher callback
(watcher.rs:32-52): match the file name against the known index files,
falling back to the processed-directory test. -/
def classifyPath (processedDir : FsPath) (p : FsPath) : Option Notification :=
  if fileName p = "tags.json" then some .tagsUpdated
  else if fileName p = "actions.json" then some .actionsUpdated
  else if fileName p = "links.json" then some .linksUpdated
  else if startsWithDir processedDir p then some .processedUpdated
  else none

/-- One callback invocation (watcher.rs:27-58): for a `Create`/`Modify`
event, each path in `event.paths` is classified and at most one
notification emitted for it, in order; every other event kind emits
nothing. -/
def processEvent (processedDir : FsPath) (kind : EventKind)
    (paths : List FsPath) : List Notification :=
  match kind with
  | .create | .modify => paths.filterMap (classifyPath processedDir)
  | _ => []

end Watch

/-! ## Theorems -/

namespace Runner

/-- A message of the `"Failed to run Claude Code: <os-message>"` shape never
coincides with the fixed installation-hint message, whatever the OS message
is (the two differ already in their first character). -/
theorem generic_ne_install_hint (m : String) :
    "Failed to run Claude Code: " ++ m ≠
      "Claude Code is not installed. Install it from https://claude.ai/download" := by
  intro h
  have hd : (("Failed to run Claude Code: " : String).data ++ m.data).head? =
      ("Claude Code is not installed. Install it from https://claude.ai/download" :
        String).data.head? := by
    rw [← String.data_append, h]
  rw [List.head?_append_of_ne_nil _ (by decide)] at hd
  exact absurd hd (by decide)

/-- C2. The `TaskResult` built at process exit has `success` equal exactly
to the exit status's `success()` (whatever was written to stderr), `output`
equal to the captured stdout lines joined by newline, and `error` equal to
`None` exactly when the joined stderr buffer is empty and `Some(buffer)`
otherwise; in particular a successful process that wrote to stderr yields
`success = true` and `error = Some(stderr text)` simultaneously. -/
theorem task_result_fields (statusSuccess : Bool)
    (stdoutLines stderrLines : List String) (durationMs : Nat) :
    (mkClaudeResult statusSuccess stdoutLines stderrLines durationMs).success =
      statusSuccess ∧
    (mkClaudeResult statusSuccess stdoutLines stderrLines durationMs).output =
      joinLines stdoutLines ∧
    ((joinLines stderrLines).isEmpty = true →
      (mkClaudeResult statusSuccess stdoutLines stderrLines durationMs).error =
        none) ∧
    ((joinLines stderrLines).isEmpty = false →
      (mkClaudeResult statusSuccess stdoutLines stderrLines durationMs).error =
        some (joinLines stderrLines) ∧
      (mkClaudeResult true stdoutLines stderrLines durationMs).success = true) := by
  refine ⟨rfl, rfl, ?_, ?_⟩ <;> intro h <;>
    simp [mkClaudeResult, h]

/-- Witness for C2: a successful process whose stderr buffer is the single
line `"warning"` yields `success = true` and `error = some "warning"`. -/
theorem task_result_fields_witness :
    (mkClaudeResult true ["out"] ["warning"] 5).error = some "warning" ∧
    (mkClaudeResult true ["out"] ["warning"] 5).success = true :=
  (task_result_fields true ["out"] ["warning"] 5).2.2.2 (by decide)

/-- C3. A spawn failure whose error kind is `NotFound` is reported with the
distinct "tool not installed" message carrying the installation hint,
independent of the OS message, and that message differs from every message
produced for any other spawn failure; every other spawn failure is reported
as `"Failed to run Claude Code: <os-message>"`. -/
theorem spawn_error_classification (osMessage : String) :
    spawnErrorMessage .notFound osMessage =
      "Claude Code is not installed. Install it from https://claude.ai/download" ∧
    spawnErrorMessage .otherKind osMessage =
      "Failed to run Claude Code: " ++ osMessage ∧
    (∀ m : String,
      spawnErrorMessage .otherKind m ≠ spawnErrorMessage .notFound osMessage) := by
  exact ⟨rfl, rfl, fun m => generic_ne_install_hint m⟩

/-- Witness for C3: the message for a concrete non-`NotFound` spawn failure
differs from the concrete "tool not installed" message. -/
theorem spawn_error_classification_witness :
    spawnErrorMessage .otherKind "permission denied" ≠
      spawnErrorMessage .notFound "ignored" :=
  (spawn_error_classification "ignored").2.2 "permission denied"

end Runner

namespace Pipeline

/-- C1. Partial-failure policy of `run_background_agents`: when the first
stage (tagger) fails, the later stages are never attempted and the
pipeline's returned error is the tagger's error; when the tagger succeeds,
all three stages are attempted — in particular the third stage runs even
when the second failed — and the pipeline's returned outcome is the result
of the last stage attempted (the context-updater's result in that case, the
tagger's in the abort case). -/
theorem run_background_agents_policy
    (taggerResult actionsResult contextResult : Except String Runner.ClaudeResult) :
    (∀ e, taggerResult = .error e →
      (run_background_agents taggerResult actionsResult contextResult).attempted =
        [.tagger] ∧
      (run_background_agents taggerResult actionsResult contextResult).outcome =
        .error e) ∧
    (∀ r, taggerResult = .ok r →
      (run_background_agents taggerResult actionsResult contextResult).attempted =
        [.tagger, .actions, .contextUpdater] ∧
      Stage.contextUpdater ∈
        (run_background_agents taggerResult actionsResult contextResult).attempted ∧
      (run_background_agents taggerResult actionsResult contextResult).outcome =
        contextResult.map fun _ => ()) := by
  constructor
  · intro e he
    subst he
    exact ⟨rfl, rfl⟩
  · intro r hr
    subst hr
    exact ⟨rfl, by simp [run_background_agents], rfl⟩

/-- Witness for C1: with a failing tagger the pipeline attempts only the
tagger and returns the tagger's error; with a successful tagger and a
failing actions stage the context-updater is still attempted. -/
theorem run_background_agents_policy_witness :
    ((run_background_agents (.error "tagger broke") (.error "x")
        (.error "y")).attempted = [.tagger] ∧
      (run_background_agents (.error "tagger broke") (.error "x")
        (.error "y")).outcome = .error "tagger broke") ∧
    Stage.contextUpdater ∈
      (run_background_agents (.ok ⟨true, "", none, 0⟩) (.error "actions broke")
        (.ok ⟨true, "", none, 0⟩)).attempted :=
  ⟨(run_background_agents_policy (.error "tagger broke") (.error "x")
      (.error "y")).1 "tagger broke" rfl,
    ((run_background_agents_policy (.ok ⟨true, "", none, 0⟩)
        (.error "actions broke") (.ok ⟨true, "", none, 0⟩)).2
      ⟨true, "", none, 0⟩ rfl).2.1⟩

end Pipeline

namespace Tracker

/-- C10. `update_session_config` unconditionally replaces the session
manager with a fresh one whose current-session slot is empty: whatever the
prior manager state (including one holding a live Active session), the
resulting manager is exactly `SessionManager::new` of the new configuration,
its `current` slot is `None`, and `get_session_info` returns `None`; no
session value survives into (or is returned from) the replacement. -/
theorem update_session_config_resets (manager : SessionManager)
    (inactivity maxDuration : Nat) (now : Int) :
    update_session_config manager inactivity maxDuration =
      SessionManager.new
        { inactivity_timeout_minutes := inactivity
          max_duration_minutes := maxDuration } ∧
    (update_session_config manager inactivity maxDuration).current = none ∧
    (update_session_config manager inactivity maxDuration).get_session_info
      now = none :=
  ⟨rfl, rfl, rfl⟩

/-- C4. Edit/end scenario on a fresh Inactive session: the first
`record_edit` at `t0` transitions to Active with
`started_at = last_edit_at = t0`; an immediately following `end` at `t1`
(same minute, so `minutes(t1 − t0) = 0`) yields state Ended with the frozen
`duration_minutes = 0`; `end` is a no-op from Inactive and from Ended; a
further `record_edit` on the Ended session yields `annotation_count = 1`,
sets `last_annotation_at`, and the state remains Ended. -/
theorem session_edit_end_annotate (p : String) (t0 t1 t2 t3 : Int)
    (h01 : numMinutes (t1 - t0) = 0) :
    let s1 := (Session.new p).record_edit t0
    let s2 := s1.endSession t1
    let s3 := s2.record_edit t2
    s1.state = .active ∧ s1.started_at = some t0 ∧
    s1.last_edit_at = some t0 ∧
    s2.state = .ended ∧ s2.duration_minutes = 0 ∧ s2.ended_at = some t1 ∧
    (Session.new p).endSession t1 = Session.new p ∧
    s2.endSession t3 = s2 ∧
    s3.state = .ended ∧ s3.annotation_count = 1 ∧
    s3.last_annotation_at = some t2 := by
  intro s1 s2 s3
  refine ⟨rfl, rfl, rfl, rfl, ?_, rfl, rfl, rfl, rfl, rfl, rfl⟩
  show (max (numMinutes (t1 - t0)) 0).toNat % 2 ^ 32 = 0
  rw [h01]
  rfl

/-- Witness for C4: the scenario run entirely at instant 0. -/
theorem session_edit_end_annotate_witness :
    ((((Session.new "note.md").record_edit 0).endSession 0).record_edit
        0).annotation_count = 1 :=
  (session_edit_end_annotate "note.md" 0 0 0 0
    (by decide)).2.2.2.2.2.2.2.2.2.1

/-- From an Active session, `end` always moves to Ended. -/
theorem endSession_state_of_active (s : Session) (now : Int)
    (h : s.state = .active) : (s.endSession now).state = .ended := by
  unfold Session.endSession
  rw [if_neg (by simp [h])]
  cases s.started_at <;> rfl

/-- Unfolding of `check_timeouts` on an Active session whose timing fields
are set: it ends the session exactly when one of the two thresholds has
elapsed. -/
theorem check_timeouts_eq_of_active (s : Session) (config : SessionConfig)
    (now st le : Int) (hact : s.state = .active)
    (hst : s.started_at = some st) (hle : s.last_edit_at = some le) :
    s.check_timeouts config now =
      if now - st ≥ minutesMs config.max_duration_minutes ∨
          now - le ≥ minutesMs config.inactivity_timeout_minutes then
        (s.endSession now, true)
      else (s, false) := by
  by_cases h1 : now - st ≥ minutesMs config.max_duration_minutes <;>
    by_cases h2 : now - le ≥ minutesMs config.inactivity_timeout_minutes <;>
    simp [Session.check_timeouts, hact, hst, hle, h1, h2]

/-- C5. `check_timeouts` returns `false` and changes nothing unless the
session is Active — for every session whatsoever, a fresh Inactive one with
no timing fields included; from an Active session (whose `started_at` and
`last_edit_at` are set, as every reachable Active session's are) it ends
the session and returns `true` exactly when the elapsed time since
`started_at` has reached the max-duration threshold or the elapsed time
since `last_edit_at` has reached the inactivity threshold; in particular
with `inactivity_timeout_minutes = 0` the very next call (at any
`now ≥ last_edit_at`) ends the session. -/
theorem check_timeouts_spec (s : Session) (config : SessionConfig)
    (now : Int) :
    (s.state ≠ .active → s.check_timeouts config now = (s, false)) ∧
    (∀ st le, s.started_at = some st → s.last_edit_at = some le →
      s.state = .active →
      ((s.check_timeouts config now).2 = true ↔
        now - st ≥ minutesMs config.max_duration_minutes ∨
        now - le ≥ minutesMs config.inactivity_timeout_minutes) ∧
      ((s.check_timeouts config now).2 = true →
        (s.check_timeouts config now).1 = s.endSession now ∧
        (s.check_timeouts config now).1.state = .ended) ∧
      ((s.check_timeouts config now).2 = false →
        (s.check_timeouts config now).1 = s) ∧
      (config.inactivity_timeout_minutes = 0 → le ≤ now →
        (s.check_timeouts config now).2 = true ∧
        (s.check_timeouts config now).1.state = .ended)) := by
  constructor
  · intro hne
    simp [Session.check_timeouts, hne]
  · intro st le hst hle hact
    rw [check_timeouts_eq_of_active s config now st le hact hst hle]
    by_cases hthr : now - st ≥ minutesMs config.max_duration_minutes ∨
        now - le ≥ minutesMs config.inactivity_timeout_minutes
    · refine ⟨by simp [hthr], ?_, ?_, ?_⟩
      · intro _
        exact ⟨by simp [hthr], by
          simp only [if_pos hthr]
          exact endSession_state_of_active s now hact⟩
      · intro hfalse
        simp [hthr] at hfalse
      · intro _ _
        exact ⟨by simp [hthr], by
          simp only [if_pos hthr]
          exact endSession_state_of_active s now hact⟩
    · refine ⟨by simp [hthr], ?_, ?_, ?_⟩
      · intro htrue
        simp [hthr] at htrue
      · intro _
        simp [hthr]
      · intro hz hle0
        exfalso
        apply hthr
        right
        rw [hz]
        simpa [minutesMs] using Int.sub_nonneg.mpr hle0

/-- Witness for C5: on a fresh Inactive session (both timing fields
`none`) `check_timeouts` is a no-op returning `false`, and an Active
session that just started, with a zero inactivity timeout, is ended by the
very next `check_timeouts` call. -/
theorem check_timeouts_spec_witness :
    (Session.new "m").check_timeouts ⟨0, 120⟩ 0 = (Session.new "m", false) ∧
    (((Session.new "n").record_edit 0).check_timeouts
        ⟨0, 120⟩ 0).2 = true ∧
    (((Session.new "n").record_edit 0).check_timeouts
        ⟨0, 120⟩ 0).1.state = .ended :=
  ⟨(check_timeouts_spec (Session.new "m") ⟨0, 120⟩ 0).1 (by decide),
    ((check_timeouts_spec ((Session.new "n").record_edit 0) ⟨0, 120⟩ 0).2
      0 0 rfl rfl rfl).2.2.2 rfl (by decide)⟩

/-- The session field invariant of the spec: `started_at` is set iff the
state is not Inactive; `ended_at` is set iff the state is Ended; and the
`duration_minutes` field still holds its initial 0 (is not yet frozen to a
session length) unless the state is Ended. -/
def fieldInvariant (s : Session) : Prop :=
  (s.started_at.isSome ↔ s.state ≠ .inactive) ∧
  (s.ended_at.isSome ↔ s.state = .ended) ∧
  (s.state ≠ .ended → s.duration_minutes = 0)

theorem fieldInvariant_new (p : String) : fieldInvariant (Session.new p) := by
  refine ⟨?_, ?_, ?_⟩ <;> simp [Session.new]

theorem fieldInvariant_from_ended (p : String) (st en : Int) (d a : Nat)
    (la : Option Int) : fieldInvariant (Session.from_ended p st en d a la) := by
  refine ⟨?_, ?_, ?_⟩ <;> simp [Session.from_ended]

theorem fieldInvariant_record_edit (s : Session) (now : Int)
    (h : fieldInvariant s) : fieldInvariant (s.record_edit now) := by
  obtain ⟨h1, h2, h3⟩ := h
  unfold Session.record_edit
  rcases hs : s.state with _ | _ | _ <;>
    simp only [hs] at h1 h2 h3 <;>
    refine ⟨?_, ?_, ?_⟩ <;>
    simp_all [Session.start, fieldInvariant]

theorem fieldInvariant_endSession (s : Session) (now : Int)
    (h : fieldInvariant s) : fieldInvariant (s.endSession now) := by
  obtain ⟨h1, h2, h3⟩ := h
  by_cases hact : s.state = .active
  · have hsome : s.started_at.isSome := h1.mpr (by simp [hact])
    rcases hs : s.started_at with _ | st
    · rw [hs] at hsome
      simp at hsome
    · unfold Session.endSession
      rw [if_neg (by simp [hact]), hs]
      exact ⟨by simp, by simp, by simp⟩
  · unfold Session.endSession
    rw [if_pos (by simp [hact])]
    exact ⟨h1, h2, h3⟩

theorem check_timeouts_fst (s : Session) (config : SessionConfig)
    (now : Int) :
    (s.check_timeouts config now).1 = s ∨
      (s.check_timeouts config now).1 = s.endSession now := by
  by_cases hne : s.state ≠ .active
  · left
    simp [Session.check_timeouts, hne]
  · have hact : s.state = .active := not_not.mp hne
    rcases hst : s.started_at with _ | st
    · rcases hle : s.last_edit_at with _ | le
      · left
        simp [Session.check_timeouts, hact, hst, hle]
      · by_cases h2 : now - le ≥ minutesMs config.inactivity_timeout_minutes
        · right
          simp [Session.check_timeouts, hact, hst, hle, h2]
        · left
          simp [Session.check_timeouts, hact, hst, hle, h2]
    · by_cases h1 : now - st ≥ minutesMs config.max_duration_minutes
      · right
        simp [Session.check_timeouts, hact, hst, h1]
      · rcases hle : s.last_edit_at with _ | le
        · left
          simp [Session.check_timeouts, hact, hst, hle, h1]
        · by_cases h2 : now - le ≥ minutesMs config.inactivity_timeout_minutes
          · right
            simp [Session.check_timeouts, hact, hst, hle, h1, h2]
          · left
            simp [Session.check_timeouts, hact, hst, hle, h1, h2]

theorem fieldInvariant_check_timeouts (s : Session) (config : SessionConfig)
    (now : Int) (h : fieldInvariant s) :
    fieldInvariant (s.check_timeouts config now).1 := by
  rcases check_timeouts_fst s config now with he | he <;> rw [he]
  · exact h
  · exact fieldInvariant_endSession s now h

theorem reachable_fieldInvariant (s : Session) (h : Reachable s) :
    fieldInvariant s := by
  induction h with
  | new p => exact fieldInvariant_new p
  | from_ended p st en d a la => exact fieldInvariant_from_ended p st en d a la
  | record_edit s now _ ih => exact fieldInvariant_record_edit s now ih
  | endSession s now _ ih => exact fieldInvariant_endSession s now ih
  | check_timeouts s config now _ ih =>
      exact fieldInvariant_check_timeouts s config now ih

/-- C9. For every session reachable from a fresh Inactive session or a
restored Ended session by any sequence of `record_edit`, `end` and
`check_timeouts`: `started_at` is set iff the state is not Inactive, and
`ended_at` (together with a frozen `duration_minutes` — the field still
holds its initial 0 in every non-Ended state) is set iff the state is
Ended. -/
theorem session_field_invariant (s : Session) (h : Reachable s) :
    (s.started_at.isSome ↔ s.state ≠ .inactive) ∧
    (s.ended_at.isSome ↔ s.state = .ended) ∧
    (s.state ≠ .ended → s.duration_minutes = 0) :=
  reachable_fieldInvariant s h

/-- Witness for C9: the invariant instantiated on the session reached by an
edit at 3 followed by an end at 4. -/
theorem session_field_invariant_witness :
    ((((Session.new "n").record_edit 3).endSession 4).started_at.isSome ↔
      (((Session.new "n").record_edit 3).endSession 4).state ≠ .inactive) ∧
    ((((Session.new "n").record_edit 3).endSession 4).ended_at.isSome ↔
      (((Session.new "n").record_edit 3).endSession 4).state = .ended) :=
  ⟨(session_field_invariant _
      (.endSession _ 4 (.record_edit _ 3 (.new "n")))).1,
    (session_field_invariant _
      (.endSession _ 4 (.record_edit _ 3 (.new "n")))).2.1⟩

end Tracker

namespace Watch

/-- C8. Filesystem event classification is a pure mapping on the changed
path: for a `Create` or `Modify` event, a path whose file name is exactly
`tags.json` produces exactly one tags-changed notification (never a
different index's), `actions.json` produces actions-changed, `links.json`
produces links-changed, any other path under the processed-notes
subdirectory produces the generic processed-output-changed notification,
and every other change — any other path, or any non-`Create`/`Modify`
event kind — produces no notification. -/
theorem watch_event_classification (processedDir : FsPath) (p : FsPath)
    (kind : EventKind) :
    (kind = .create ∨ kind = .modify →
      (fileName p = "tags.json" →
        processEvent processedDir kind [p] = [.tagsUpdated]) ∧
      (fileName p = "actions.json" →
        processEvent processedDir kind [p] = [.actionsUpdated]) ∧
      (fileName p = "links.json" →
        processEvent processedDir kind [p] = [.linksUpdated]) ∧
      (fileName p ≠ "tags.json" → fileName p ≠ "actions.json" →
        fileName p ≠ "links.json" →
        (startsWithDir processedDir p = true →
          processEvent processedDir kind [p] = [.processedUpdated]) ∧
        (startsWithDir processedDir p = false →
          processEvent processedDir kind [p] = []))) ∧
    (kind ≠ .create → kind ≠ .modify →
      processEvent processedDir kind [p] = []) := by
  constructor
  · intro hkind
    have hpe : ∀ r, classifyPath processedDir p = r →
        processEvent processedDir kind [p] = r.toList := by
      intro r hr
      rcases hkind with h | h <;> subst h <;>
        simp only [processEvent, List.filterMap, hr] <;> cases r <;> simp
    refine ⟨?_, ?_, ?_, ?_⟩
    · intro hf
      exact hpe (some .tagsUpdated) (by simp [classifyPath, hf])
    · intro hf
      exact hpe (some .actionsUpdated) (by simp [classifyPath, hf])
    · intro hf
      exact hpe (some .linksUpdated) (by simp [classifyPath, hf])
    · intro h1 h2 h3
      exact ⟨fun hin =>
          hpe (some .processedUpdated)
            (by simp [classifyPath, h1, h2, h3, hin]),
        fun hout => hpe none (by simp [classifyPath, h1, h2, h3, hout])⟩
  · intro h1 h2
    cases kind <;> simp_all [processEvent]

/-- Witness for C8: a `Create` of `.chronicle/tags.json` yields exactly the
tags-changed notification, and a `Modify` of a note under
`.chronicle/processed/` yields the generic processed-output notification. -/
theorem watch_event_classification_witness :
    processEvent [".chronicle", "processed"] .create
        [[".chronicle", "tags.json"]] = [.tagsUpdated] ∧
    processEvent [".chronicle", "processed"] .modify
        [[".chronicle", "processed", "note.md"]] = [.processedUpdated] :=
  ⟨((watch_event_classification [".chronicle", "processed"]
        [".chronicle", "tags.json"] .create).1 (Or.inl rfl)).1 rfl,
    (((watch_event_classification [".chronicle", "processed"]
          [".chronicle", "processed", "note.md"] .modify).1
        (Or.inr rfl)).2.2.2 (by decide) (by decide) (by decide)).1
      (by decide)⟩

end Watch

namespace Git

theorem create_default_gitignore_hasGitDir (st : WorkspaceState) :
    (create_default_gitignore st).hasGitDir = st.hasGitDir := by
  unfold create_default_gitignore
  split <;> rfl

theorem init_or_open_of_repo (st : WorkspaceState)
    (h : st.hasGitDir = true) : init_or_open_repo st = st := by
  unfold init_or_open_repo is_git_repo
  rw [if_pos h]

theorem init_or_open_hasGitDir (st : WorkspaceState) :
    (init_or_open_repo st).hasGitDir = true := by
  unfold init_or_open_repo is_git_repo
  split
  · next h => exact h
  · show (create_default_gitignore _).hasGitDir = true
    rw [create_default_gitignore_hasGitDir]

/-- C6. `init_or_open` on a workspace directory is idempotent: when a
repository already exists the call opens it without any write to the state,
so a second call on the directory left by a first call changes nothing; and
on a fresh directory the first call establishes exactly a repository with
the default ignore file on disk and a single parentless initial commit
whose tree contains only that ignore file. -/
theorem init_or_open_idempotent (st : WorkspaceState) :
    (is_git_repo st = true → init_or_open_repo st = st) ∧
    init_or_open_repo (init_or_open_repo st) = init_or_open_repo st ∧
    (is_git_repo st = false → st.index = [] → st.commits = [] →
      ".gitignore" ∈ (init_or_open_repo st).diskFiles ∧
      (init_or_open_repo st).commits =
        [{ message := "Initial commit: Chronicle workspace"
           tree := [".gitignore"]
           parent := none }]) := by
  refine ⟨?_, ?_, ?_⟩
  · intro h
    exact init_or_open_of_repo st h
  · exact init_or_open_of_repo _ (init_or_open_hasGitDir st)
  · intro h hidx hcom
    have hfalse : st.hasGitDir = false := h
    unfold init_or_open_repo is_git_repo
    rw [if_neg (by simp [hfalse])]
    unfold create_initial_commit create_default_gitignore
    by_cases hg : ".gitignore" ∈ st.diskFiles
    · rw [if_pos (by simpa using hg)]
      exact ⟨by simpa using hg, by simp [addToIndex, hidx, hcom]⟩
    · rw [if_neg (by simpa using hg)]
      exact ⟨by simp, by simp [addToIndex, hidx, hcom]⟩

/-- Witness for C6: initializing an empty workspace twice equals
initializing it once, and the first call leaves the ignore file plus its
initial commit. -/
theorem init_or_open_idempotent_witness :
    init_or_open_repo (init_or_open_repo ⟨[], false, [], []⟩) =
      init_or_open_repo ⟨[], false, [], []⟩ ∧
    ".gitignore" ∈ (init_or_open_repo ⟨[], false, [], []⟩).diskFiles :=
  ⟨(init_or_open_idempotent ⟨[], false, [], []⟩).2.1,
    ((init_or_open_idempotent ⟨[], false, [], []⟩).2.2 rfl rfl rfl).1⟩

theorem mem_addToIndex (idx : List String) (q p : String) :
    p ∈ addToIndex idx q ↔ p ∈ idx ∨ p = q := by
  by_cases h : q ∈ idx <;> simp only [addToIndex, h, if_true, if_false]
  · exact ⟨Or.inl, fun hp => hp.elim id fun e => e ▸ h⟩
  · simp

/-- Membership in the index after the staging fold of `commit_files`. -/
theorem stageFold_mem (files disk : List String) :
    ∀ (idx : List String) (p : String),
      (p ∈ files.foldl
          (fun acc f => if f ∈ disk then addToIndex acc f else acc) idx) ↔
        p ∈ idx ∨ (p ∈ files ∧ p ∈ disk) := by
  induction files with
  | nil => simp
  | cons f fs ih =>
    intro idx p
    simp only [List.foldl_cons]
    rw [ih]
    by_cases hf : f ∈ disk
    · rw [if_pos hf, mem_addToIndex]
      constructor
      · rintro ((hp | he) | ⟨hfs, hd⟩)
        · exact Or.inl hp
        · exact Or.inr ⟨by simp [he], he ▸ hf⟩
        · exact Or.inr ⟨by simp [hfs], hd⟩
      · rintro (hp | ⟨hmem, hd⟩)
        · exact Or.inl (Or.inl hp)
        · rcases List.mem_cons.mp hmem with he | hfs
          · exact Or.inl (Or.inr he)
          · exact Or.inr ⟨hfs, hd⟩
    · rw [if_neg hf]
      constructor
      · rintro (hp | ⟨hfs, hd⟩)
        · exact Or.inl hp
        · exact Or.inr ⟨by simp [hfs], hd⟩
      · rintro (hp | ⟨hmem, hd⟩)
        · exact Or.inl hp
        · rcases List.mem_cons.mp hmem with he | hfs
          · exact absurd (he ▸ hd) hf
          · exact Or.inr ⟨hfs, hd⟩

/-- The staging fold leaves the index unchanged when no listed path exists
on disk. -/
theorem stageFold_skip (files disk : List String)
    (h : ∀ f ∈ files, f ∉ disk) :
    ∀ idx : List String,
      files.foldl (fun acc f => if f ∈ disk then addToIndex acc f else acc)
        idx = idx := by
  induction files with
  | nil => intro idx; rfl
  | cons f fs ih =>
    intro idx
    simp only [List.foldl_cons, if_neg (h f (by simp))]
    exact ih (fun g hg => h g (by simp [hg])) idx

theorem hexDigits_length (k : Nat) : ∀ v, (hexDigits k v).length = k := by
  induction k with
  | zero => intro v; rfl
  | succ k ih => intro v; simp [hexDigits, ih]

theorem shortId_length (n : Nat) : (shortId n).length = 7 := by
  simp [shortId, String.length, hexDigits_length]

/-- C7. `commit_files` on an existing repository never errors — even when
every listed path is missing from disk — and: the index afterwards holds
exactly its previous entries plus those listed relative paths that exist on
disk (missing ones silently skipped; in particular an all-missing list
leaves the index unchanged); the appended commit carries the message
`"<type>: <title> (<detail>)"`, the tree written from that index, and the
current branch tip as sole parent (no parent when the repository had no
commits); and the returned identifying hash has exactly 7 characters. -/
theorem commit_files_spec (st : WorkspaceState) (files : List String)
    (commit_type : CommitType) (title detail : String)
    (h : st.hasGitDir = true) :
    (commit_files st files commit_type title detail).isOk = true ∧
    ∀ st' sid,
      commit_files st files commit_type title detail = .ok (st', sid) →
      (∀ p, p ∈ st'.index ↔ p ∈ st.index ∨ (p ∈ files ∧ p ∈ st.diskFiles)) ∧
      ((∀ f ∈ files, f ∉ st.diskFiles) → st'.index = st.index) ∧
      st'.commits = st.commits ++
        [{ message :=
              commit_type.prefixStr ++ ": " ++ title ++ " (" ++ detail ++ ")"
           tree := st'.index
           parent :=
             if st.commits.isEmpty then none
             else some (st.commits.length - 1) }] ∧
      sid.length = 7 := by
  constructor
  · simp [commit_files, h, Except.isOk, Except.toBool]
  · intro st' sid hres
    rw [commit_files, if_neg (by simp [h])] at hres
    injection hres with hpair
    injection hpair with hst hsid
    subst hst hsid
    refine ⟨?_, ?_, rfl, shortId_length _⟩
    · intro p
      exact stageFold_mem files st.diskFiles st.index p
    · intro hnone
      simp only []
      exact stageFold_skip files st.diskFiles hnone st.index

/-- Witness for C7: committing `note.md` (present) and `missing.md`
(absent) in a one-commit repository succeeds, and the returned short hash
for the resulting commit has 7 characters. -/
theorem commit_files_spec_witness :
    (commit_files
        ⟨["note.md", ".gitignore"], true, [".gitignore"],
          [⟨"Initial commit: Chronicle workspace", [".gitignore"], none⟩]⟩
        ["note.md", "missing.md"] .session "Test" "5m").isOk = true ∧
    ("0000000" : String).length = 7 :=
  ⟨(commit_files_spec
      ⟨["note.md", ".gitignore"], true, [".gitignore"],
        [⟨"Initial commit: Chronicle workspace", [".gitignore"], none⟩]⟩
      ["note.md", "missing.md"] .session "Test" "5m" rfl).1,
    ((commit_files_spec
        ⟨["note.md", ".gitignore"], true, [".gitignore"],
          [⟨"Initial commit: Chronicle workspace", [".gitignore"], none⟩]⟩
        ["note.md", "missing.md"] .session "Test" "5m" rfl).2
      ⟨["note.md", ".gitignore"], true, [".gitignore", "note.md"],
        [⟨"Initial commit: Chronicle workspace", [".gitignore"], none⟩,
          ⟨"session: Test (5m)", [".gitignore", "note.md"], some 0⟩]⟩
      "0000000" (by rfl)).2.2.2⟩

end Git

end Chronicle
